import Mathlib

/-!
Verification of the ctx_guard evaluation harness.

Python strings are embedded as `List Char`; Python floats that carry the
scoring arithmetic are embedded as `ℚ`; machine exit codes as `Int`.
Source files embedded here:
  `evals/quality/runner.py` and `evals/speed/runner.py`.
-/

/-- Single-quote character, written via its code point. -/
def sqc : Char := Char.ofNat 39

/-- Double-quote character, written via its code point. -/
def dqc : Char := Char.ofNat 34

/-- Whitespace characters stripped by Python `str.strip()` (ASCII fragment). -/
def isPyWs (c : Char) : Bool :=
  c == ' ' || c == Char.ofNat 9 || c == '\n' || c == Char.ofNat 13 ||
  c == Char.ofNat 11 || c == Char.ofNat 12

/-- Python `str.strip()`: drop whitespace from both ends. -/
def pyStrip (l : List Char) : List Char :=
  ((l.dropWhile isPyWs).reverse.dropWhile isPyWs).reverse

/-- Python `str.lower()` on the ASCII fragment of the inputs. -/
def asciiLower (c : Char) : Char :=
  if 'A' ≤ c ∧ c ≤ 'Z' then Char.ofNat (c.toNat + 32) else c

/-- Python `str.lower()` applied characterwise. -/
def pyLower (l : List Char) : List Char := l.map asciiLower

/-- Boolean test that `n` is a leading block of `h`. -/
def startsWith : List Char → List Char → Bool
  | [], _ => true
  | _ :: _, [] => false
  | n :: ns, h :: hs => n == h && startsWith ns hs

/-- Python `needle in haystack`: contiguous-substring membership. -/
def containsSub (n : List Char) : List Char → Bool
  | [] => n.isEmpty
  | x :: xs => startsWith n (x :: xs) || containsSub n xs

/-- Python `str.split(c)` for a single-character separator: keeps empty pieces. -/
def splitOnChar (c : Char) : List Char → List (List Char)
  | [] => [[]]
  | x :: xs =>
    match splitOnChar c xs with
    | [] => [[]]
    | h :: t => if x = c then [] :: h :: t else (x :: h) :: t

/-- Structural worker for multi-character `str.split`: the fuel dominates the
input length, so the zero-fuel case with a nonempty list is never reached on
the wrapper's call. -/
def splitOnSubFuel (sep : List Char) : Nat → List Char → List (List Char)
  | _, [] => [[]]
  | 0, l => [l]
  | fuel + 1, x :: xs =>
    if startsWith sep (x :: xs) then
      [] :: splitOnSubFuel sep fuel (List.drop (sep.length - 1) xs)
    else
      match splitOnSubFuel sep fuel xs with
      | [] => [[x]]
      | h :: t => (x :: h) :: t

/-- Python `str.split(sep)` for a multi-character separator, scanning left to
right over non-overlapping occurrences.  Python raises on an empty separator;
the harness only splits on the fixed nonempty `"available at "`, so the empty
case is given a vacuous value. -/
def splitOnSub (sep : List Char) (l : List Char) : List (List Char) :=
  if sep.isEmpty then [l] else splitOnSubFuel sep l.length l

/-- Marker line fragment from `quality/runner.py`:
`'complete output is available at' in line`. -/
def outputMarker : List Char := "complete output is available at".data

/-- Delimiter from `quality/runner.py`: `line.split('available at ')`. -/
def availDelim : List Char := "available at ".data

/-- One line of the extraction loop body: `parts = line.split('available at ')`;
`if len(parts) > 1: output_file = parts[1].strip()`. -/
def extractFromLine (line : List Char) : Option (List Char) :=
  match splitOnSub availDelim line with
  | _ :: p1 :: _ => some (pyStrip p1)
  | _ => none

/-- The `for line in stdout.split('\n')` loop of `run_command` in
`quality/runner.py`, with its `break` on the first marker line. -/
def extractLoop : List (List Char) → Option (List Char)
  | [] => none
  | line :: rest =>
    if containsSub outputMarker line then extractFromLine line
    else extractLoop rest

/-- Output-file extraction of `run_command` (`quality/runner.py` lines 69-77). -/
def extractOutputFile (stdout : List Char) : Option (List Char) :=
  extractLoop (splitOnChar '\n' stdout)

/-- Raw-output detection of `run_command` (`quality/runner.py` lines 79-81). -/
def usedRawOutputOf (stdout : List Char) : Bool :=
  containsSub "output shorter than".data (pyLower stdout) &&
  containsSub "returning raw output".data (pyLower stdout)

/-- The literal `"unexpected argument '--force-summary'"` built without
apostrophe characters inside a string literal. -/
def unsupportedArgMarker : List Char :=
  "unexpected argument ".data ++ [sqc] ++ "--force-summary".data ++ [sqc]

/-- The literal `"--force-summary"`. -/
def forceFlagMarker : List Char := "--force-summary".data

/-- The unsupported-flag check both runners apply to
`f"{stdout}\n{stderr}".lower()`. -/
def hasUnsupportedMarker (combined : List Char) : Bool :=
  containsSub unsupportedArgMarker (pyLower combined) ||
  containsSub forceFlagMarker (pyLower combined)

/-- Result of one completed `subprocess.run` call: stdout, stderr, returncode. -/
structure ExecResult where
  stdout : List Char
  stderr : List Char
  code : Int
deriving DecidableEq

/-- Outcome of one `execute(use_force)` call: either a completed process or a
`subprocess.TimeoutExpired` carrying the partial `e.stdout` / `e.stderr`. -/
inductive ExecOutcome where
  | completed : ExecResult → ExecOutcome
  | timedOut : Option (List Char) → Option (List Char) → ExecOutcome
deriving DecidableEq

/-- Outcome of a whole `run_command` call: a returned value, or an uncaught
exception propagating out of the function. -/
inductive RunOutcome (α : Type) where
  | ok : α → RunOutcome α
  | raised : RunOutcome α
deriving DecidableEq

/-- The tuple `(stdout, exit_code, output_file, used_raw_output)` returned by
`run_command` in `quality/runner.py`. -/
structure QRunResult where
  stdout : List Char
  exitCode : Int
  outputFile : Option (List Char)
  usedRawOutput : Bool
deriving DecidableEq

/-- Classification part of `run_command` in `quality/runner.py`: derives the
output-file path and the raw-output flag from the terminal stdout. -/
def qClassify (stdout : List Char) (code : Int) : QRunResult :=
  { stdout := stdout, exitCode := code,
    outputFile := extractOutputFile stdout,
    usedRawOutput := usedRawOutputOf stdout }

/-- The `(stdout, stderr, exit_code)` state after the first attempt in
`quality/runner.py` lines 55-60: the completed values, or on
`TimeoutExpired` the synthetic `(e.stdout or "") + "\n" + (e.stderr or "")`
with empty stderr and exit code 124. -/
def qFirstResult (oracle : Bool → ExecOutcome) (forceSummary : Bool) : ExecResult :=
  match oracle forceSummary with
  | ExecOutcome.completed r => r
  | ExecOutcome.timedOut po pe =>
    { stdout := (po.getD []) ++ '\n' :: (pe.getD []), stderr := [], code := 124 }

/-- The fallback-retry condition shared verbatim by both runners:
`exit_code != 0 and force_summary` and the marker test on
`f"{stdout}\n{stderr}".lower()`. -/
def retryCond (r : ExecResult) (forceSummary : Bool) : Bool :=
  decide (r.code ≠ 0) && forceSummary &&
  hasUnsupportedMarker (r.stdout ++ '\n' :: r.stderr)

/-- `run_command` of `quality/runner.py` (lines 32-83) over an oracle giving
each `execute(use_force)` call's outcome.  The second component counts the
subject-CLI invocations issued.  A `TimeoutExpired` raised by the retry call
is not caught and propagates (`RunOutcome.raised`). -/
def runCommandQuality (oracle : Bool → ExecOutcome) (forceSummary : Bool) :
    RunOutcome QRunResult × Nat :=
  if retryCond (qFirstResult oracle forceSummary) forceSummary then
    match oracle false with
    | ExecOutcome.completed r => (RunOutcome.ok (qClassify r.stdout r.code), 2)
    | ExecOutcome.timedOut _ _ => (RunOutcome.raised, 2)
  else
    (RunOutcome.ok
      (qClassify (qFirstResult oracle forceSummary).stdout
        (qFirstResult oracle forceSummary).code), 1)

/-- The synthetic timeout message of `run_command` in `speed/runner.py`:
`f"Command timed out after {timeout}s. stdout: {stdout} stderr: {stderr}"`. -/
def timeoutMessage (timeout : Nat) (po pe : Option (List Char)) : List Char :=
  "Command timed out after ".data ++ (Nat.repr timeout).data ++
  "s. stdout: ".data ++ (po.getD []) ++ " stderr: ".data ++ (pe.getD [])

/-- `run_command` of `speed/runner.py` (lines 41-85): on a first-attempt
timeout it returns early with exit code 124; wall-clock duration is outside
this embedding.  A `TimeoutExpired` raised by the retry call propagates. -/
def runCommandSpeed (oracle : Bool → ExecOutcome) (forceSummary : Bool)
    (timeout : Nat) : RunOutcome (List Char × Int) × Nat :=
  match oracle forceSummary with
  | ExecOutcome.timedOut po pe =>
    (RunOutcome.ok (timeoutMessage timeout po pe, 124), 1)
  | ExecOutcome.completed r =>
    if retryCond r forceSummary then
      match oracle false with
      | ExecOutcome.completed r2 => (RunOutcome.ok (r2.stdout, r2.code), 2)
      | ExecOutcome.timedOut _ _ => (RunOutcome.raised, 2)
    else (RunOutcome.ok (r.stdout, r.code), 1)

/-- Challenge definition consumed by the quality runner: `command`,
`expected_issue`, `expected_solution`, `key_phrases`. -/
structure Challenge where
  command : List Char
  expected_issue : List Char
  expected_solution : List Char
  key_phrases : List (List Char)
deriving DecidableEq

/-- The metrics dict returned by `evaluate_summary_quality`. -/
structure QualityEval where
  can_solve : Bool
  quality_score : ℚ
  issue_found : Bool
  solution_found : Bool
  phrase_coverage : ℚ
  phrases_found : Nat
  total_phrases : Nat
deriving DecidableEq

/-- The local `issue_found` of `evaluate_summary_quality` (line 97):
`expected_issue in summary_lower if expected_issue else True`, on the
lower-cased strings. -/
def issueFoundOf (summary : List Char) (challenge : Challenge) : Bool :=
  if (pyLower challenge.expected_issue).isEmpty then true
  else containsSub (pyLower challenge.expected_issue) (pyLower summary)

/-- The local `solution_found` of `evaluate_summary_quality` (line 100). -/
def solutionFoundOf (summary : List Char) (challenge : Challenge) : Bool :=
  if (pyLower challenge.expected_solution).isEmpty then true
  else containsSub (pyLower challenge.expected_solution) (pyLower summary)

/-- The local `phrases_found` of `evaluate_summary_quality` (line 103):
`sum(1 for phrase in key_phrases if phrase.lower() in summary_lower)`. -/
def phrasesFoundOf (summary : List Char) (challenge : Challenge) : Nat :=
  (challenge.key_phrases.filter
    (fun phrase => containsSub (pyLower phrase) (pyLower summary))).length

/-- The local `phrase_coverage` of `evaluate_summary_quality` (line 104):
`phrases_found / len(key_phrases) if key_phrases else 1.0`. -/
def phraseCoverageOf (summary : List Char) (challenge : Challenge) : ℚ :=
  if challenge.key_phrases.isEmpty then 1
  else (phrasesFoundOf summary challenge : ℚ) / (challenge.key_phrases.length : ℚ)

/-- The local `quality_score` of `evaluate_summary_quality` (lines 107-112):
starts at 0.0, adds 0.4 for the issue, 0.4 for the solution, and
`phrase_coverage * 0.2`. -/
def qualityScoreOf (summary : List Char) (challenge : Challenge) : ℚ :=
  ((0 : ℚ) + (if issueFoundOf summary challenge then (0.4 : ℚ) else 0) +
    (if solutionFoundOf summary challenge then (0.4 : ℚ) else 0)) +
  phraseCoverageOf summary challenge * (0.2 : ℚ)

/-- `evaluate_summary_quality` of `quality/runner.py` (lines 85-125), with the
float arithmetic carried out in `ℚ`; `can_solve = quality_score >= 0.7`. -/
def evaluate_summary_quality (summary : List Char) (challenge : Challenge) :
    QualityEval :=
  { can_solve := decide (qualityScoreOf summary challenge ≥ (0.7 : ℚ)),
    quality_score := qualityScoreOf summary challenge,
    issue_found := issueFoundOf summary challenge,
    solution_found := solutionFoundOf summary challenge,
    phrase_coverage := phraseCoverageOf summary challenge,
    phrases_found := phrasesFoundOf summary challenge,
    total_phrases := challenge.key_phrases.length }

/-- The zeroed evaluation dict substituted by `run_quality_evaluation`
(`quality/runner.py` lines 209-218) when `used_raw_output` is true. -/
def zeroedEvaluation (challenge : Challenge) : QualityEval :=
  { can_solve := false, quality_score := 0, issue_found := false,
    solution_found := false, phrase_coverage := 0, phrases_found := 0,
    total_phrases := challenge.key_phrases.length }

/-- The evaluation branch of `run_quality_evaluation` (lines 208-223): the
substituted zeroed evaluation with `needs_full_output = True` on raw output,
else the scorer's result with `needs_full_output = quality_score < 0.5`. -/
def qualityStep (usedRawOutput : Bool) (stdout : List Char)
    (challenge : Challenge) : QualityEval × Bool :=
  if usedRawOutput then (zeroedEvaluation challenge, true)
  else
    let evaluation := evaluate_summary_quality stdout challenge
    (evaluation, decide (evaluation.quality_score < (0.5 : ℚ)))

/-- Python `int(q)` on a float value: truncation toward zero. -/
def pyIntTrunc (q : ℚ) : Int := if 0 ≤ q then ⌊q⌋ else ⌈q⌉

/-- Content of the file written by `write_test_file` in `speed/runner.py`
(lines 28-36): `"a" * int(size_factor * max_tokens)`. -/
def write_test_file (max_tokens : Nat) (size_factor : ℚ) : List Char :=
  let size := pyIntTrunc (size_factor * (max_tokens : ℚ))
  List.replicate size.toNat 'a'

/-- Character class of `shlex._find_unsafe`: quoting is skipped exactly when
every character is ASCII alphanumeric or one of underscore, at-sign, percent,
plus, equals, colon, comma, dot, slash, hyphen. -/
def shlexSafeChar (c : Char) : Bool :=
  ('a' ≤ c && c ≤ 'z') || ('A' ≤ c && c ≤ 'Z') || ('0' ≤ c && c ≤ '9') ||
  c == '_' || c == '@' || c == '%' || c == '+' || c == '=' || c == ':' ||
  c == ',' || c == '.' || c == '/' || c == '-'

/-- Per-character step of `s.replace("'", "'\"'\"'")` inside `shlex.quote`. -/
def shlexQuoteChar (c : Char) : List Char :=
  if c == sqc then [sqc, dqc, sqc, dqc, sqc] else [c]

/-- Python `shlex.quote`: empty strings and strings with unsafe characters are
wrapped in single quotes, with embedded single quotes spliced as a
double-quoted quote. -/
def shlexQuote (s : List Char) : List Char :=
  if s.isEmpty then [sqc, sqc]
  else if s.all shlexSafeChar then s
  else sqc :: ((s.map shlexQuoteChar).flatten ++ [sqc])

/-- The command string both runners hand to `sh -c`:
`f"cg -c {shlex.quote(config_file)} {force_flag} {command}".strip()`. -/
def cgCommand (config_file command : List Char) (use_force : Bool) : List Char :=
  let force_flag := if use_force then "--force-summary".data else []
  pyStrip ("cg -c ".data ++ shlexQuote config_file ++ " ".data ++ force_flag ++
    " ".data ++ command)

/-- Modelled from the spec: the construction the specification asserts, in
which "all tokens must be safely shell-escaped" — including the user command
token; absent from the source, which appends the command verbatim. -/
def cgCommandSpecEscaped (config_file command : List Char)
    (use_force : Bool) : List Char :=
  let force_flag := if use_force then "--force-summary".data else []
  pyStrip ("cg -c ".data ++ shlexQuote config_file ++ " ".data ++ force_flag ++
    " ".data ++ shlexQuote command)

/-- Parser modes of the simplified POSIX shell word reader. -/
inductive ShMode where
  | norm : ShMode
  | single : ShMode
  | double : ShMode

/-- Simplified POSIX shell word reading: single-quoted and double-quoted
segments are literal, unquoted characters are accepted only from the
shlex-safe class, and anything else (an unquoted metacharacter or an
unterminated quote) is rejected.  Used to state that `shlexQuote` output
always reads back as the original string. -/
def shRead (m : ShMode) (l : List Char) : Option (List Char) :=
  match m, l with
  | ShMode.norm, [] => some []
  | ShMode.norm, c :: r =>
    if c == sqc then shRead ShMode.single r
    else if c == dqc then shRead ShMode.double r
    else if shlexSafeChar c then (shRead ShMode.norm r).map (fun t => c :: t)
    else none
  | ShMode.single, [] => none
  | ShMode.single, c :: r =>
    if c == sqc then shRead ShMode.norm r
    else (shRead ShMode.single r).map (fun t => c :: t)
  | ShMode.double, [] => none
  | ShMode.double, c :: r =>
    if c == dqc then shRead ShMode.norm r
    else (shRead ShMode.double r).map (fun t => c :: t)

/-- Read one shell word starting outside quotes. -/
def shellUnquote (l : List Char) : Option (List Char) := shRead ShMode.norm l

/-- Nonempty and starting with a non-whitespace character. -/
def startsNonWs (l : List Char) : Bool :=
  match l with
  | [] => false
  | c :: _ => !isPyWs c

/-- Nonempty and ending with a non-whitespace character. -/
def endsNonWs (l : List Char) : Bool := startsNonWs l.reverse

/-- Oracle describing a first attempt that times out with partial stderr
naming the force flag, and a clean retried attempt. -/
def timeoutMarkerOracle : Bool → ExecOutcome := fun b =>
  if b then
    ExecOutcome.timedOut none (some ("error: unexpected argument ".data ++
      [sqc] ++ "--force-summary".data ++ [sqc] ++ " found".data))
  else ExecOutcome.completed ⟨"retried output".data, [], 0⟩

/-- Oracle describing a failed first attempt whose stderr names the force
flag, and a retried attempt that itself times out. -/
def retryTimeoutOracle : Bool → ExecOutcome := fun b =>
  if b then ExecOutcome.completed ⟨"fail".data, unsupportedArgMarker, 2⟩
  else ExecOutcome.timedOut none none

/-- Oracle describing a failed first attempt whose stderr names the force
flag, and a clean retried attempt. -/
def unsupportedFlagOracle : Bool → ExecOutcome := fun b =>
  if b then ExecOutcome.completed ⟨"boom".data, unsupportedArgMarker, 2⟩
  else ExecOutcome.completed ⟨"fine".data, [], 0⟩

/-- Oracle describing a first attempt that times out with partial stdout and
no partial stderr. -/
def plainTimeoutOracle : Bool → ExecOutcome := fun _ =>
  ExecOutcome.timedOut (some "par".data) none

/-! Helper lemmas about the string primitives. -/

theorem startsWith_iff_append (n h : List Char) :
    startsWith n h = true ↔ ∃ t, h = n ++ t := by
  induction n generalizing h with
  | nil => simp [startsWith]
  | cons a as ih =>
    cases h with
    | nil => simp [startsWith]
    | cons b bs =>
      simp only [startsWith, Bool.and_eq_true, beq_iff_eq, ih, List.cons_append,
        List.cons.injEq]
      constructor
      · rintro ⟨rfl, t, rfl⟩; exact ⟨t, rfl, rfl⟩
      · rintro ⟨t, rfl, rfl⟩; exact ⟨rfl, t, rfl⟩

theorem containsSub_iff_parts (n h : List Char) :
    containsSub n h = true ↔ ∃ p t, h = p ++ n ++ t := by
  induction h with
  | nil =>
    simp only [containsSub, List.isEmpty_iff]
    constructor
    · rintro rfl; exact ⟨[], [], rfl⟩
    · rintro ⟨p, t, he⟩
      rcases List.append_eq_nil.mp (List.append_eq_nil.mp he.symm).1 with ⟨_, h2⟩
      exact h2
  | cons x xs ih =>
    simp only [containsSub, Bool.or_eq_true, startsWith_iff_append, ih]
    constructor
    · rintro (⟨t, he⟩ | ⟨p, t, he⟩)
      · exact ⟨[], t, by simp [he]⟩
      · exact ⟨x :: p, t, by simp [he]⟩
    · rintro ⟨p, t, he⟩
      cases p with
      | nil => exact Or.inl ⟨t, by simpa using he⟩
      | cons y ys =>
        simp only [List.cons_append, List.cons.injEq] at he
        exact Or.inr ⟨ys, t, he.2⟩

theorem containsSub_trans {a b c : List Char} (h1 : containsSub a b = true)
    (h2 : containsSub b c = true) : containsSub a c = true := by
  rw [containsSub_iff_parts] at h1 h2 ⊢
  obtain ⟨p1, t1, rfl⟩ := h1
  obtain ⟨p2, t2, rfl⟩ := h2
  exact ⟨p2 ++ p1, t1 ++ t2, by simp⟩

theorem splitOnChar_ne_nil (c : Char) (s : List Char) : splitOnChar c s ≠ [] := by
  induction s with
  | nil => simp [splitOnChar]
  | cons x xs ih =>
    cases hsp : splitOnChar c xs with
    | nil => exact absurd hsp ih
    | cons h t =>
      simp only [splitOnChar, hsp]
      split <;> simp

theorem splitOnChar_parts (c : Char) (s : List Char) :
    (∀ h t, splitOnChar c s = h :: t → ∃ post, s = h ++ post) ∧
    (∀ line ∈ splitOnChar c s, ∃ p t, s = p ++ line ++ t) := by
  induction s with
  | nil =>
    refine ⟨?_, ?_⟩
    · intro h t he
      simp only [splitOnChar, List.cons.injEq] at he
      exact ⟨[], by simp [← he.1]⟩
    · intro line hm
      simp only [splitOnChar, List.mem_singleton] at hm
      exact ⟨[], [], by simp [hm]⟩
  | cons x xs ih =>
    obtain ⟨h0, t0, heq⟩ : ∃ h0 t0, splitOnChar c xs = h0 :: t0 := by
      cases hsp : splitOnChar c xs with
      | nil => exact absurd hsp (splitOnChar_ne_nil c xs)
      | cons a b => exact ⟨a, b, rfl⟩
    have hsplit : splitOnChar c (x :: xs) =
        if x = c then [] :: h0 :: t0 else (x :: h0) :: t0 := by
      simp only [splitOnChar, heq]
    by_cases hc : x = c
    · rw [if_pos hc] at hsplit
      refine ⟨?_, ?_⟩
      · intro h t he
        rw [hsplit] at he
        obtain ⟨he1, -⟩ := List.cons.inj he
        exact ⟨x :: xs, by simp [← he1]⟩
      · intro line hm
        rw [hsplit] at hm
        rcases List.mem_cons.mp hm with rfl | hm2
        · exact ⟨[], x :: xs, rfl⟩
        · obtain ⟨p, t, he⟩ := ih.2 line (by rw [heq]; exact hm2)
          exact ⟨x :: p, t, by simp [he]⟩
    · rw [if_neg hc] at hsplit
      refine ⟨?_, ?_⟩
      · intro h t he
        rw [hsplit] at he
        obtain ⟨he1, -⟩ := List.cons.inj he
        obtain ⟨post, hp⟩ := ih.1 h0 t0 heq
        exact ⟨post, by simp [← he1, hp]⟩
      · intro line hm
        rw [hsplit] at hm
        rcases List.mem_cons.mp hm with rfl | hm2
        · obtain ⟨post, hp⟩ := ih.1 h0 t0 heq
          exact ⟨[], post, by simp [hp]⟩
        · obtain ⟨p, t, he⟩ := ih.2 line (by rw [heq]; exact List.mem_cons_of_mem h0 hm2)
          exact ⟨x :: p, t, by simp [he]⟩

theorem extractLoop_none (lines : List (List Char))
    (h : ∀ l ∈ lines, containsSub outputMarker l = false) :
    extractLoop lines = none := by
  induction lines with
  | nil => rfl
  | cons l rest ih =>
    have h1 := h l (List.mem_cons_self l rest)
    simp only [extractLoop, h1, Bool.false_eq_true, if_false]
    exact ih (fun l' hm => h l' (List.mem_cons_of_mem l hm))

theorem phraseCoverageOf_nonneg (summary : List Char) (challenge : Challenge) :
    0 ≤ phraseCoverageOf summary challenge := by
  unfold phraseCoverageOf
  split
  · norm_num
  · positivity

theorem phraseCoverageOf_le_one (summary : List Char) (challenge : Challenge) :
    phraseCoverageOf summary challenge ≤ 1 := by
  unfold phraseCoverageOf
  split
  · norm_num
  · rename_i he
    have hne : challenge.key_phrases ≠ [] := by
      simpa [List.isEmpty_iff] using he
    have hpos : (0 : ℚ) < (challenge.key_phrases.length : ℚ) := by
      exact_mod_cast List.length_pos.mpr hne
    rw [div_le_one hpos]
    exact_mod_cast List.length_filter_le _ _

theorem qualityScoreOf_bounds (summary : List Char) (challenge : Challenge) :
    0 ≤ qualityScoreOf summary challenge ∧ qualityScoreOf summary challenge ≤ 1 := by
  have h1 := phraseCoverageOf_nonneg summary challenge
  have h2 := phraseCoverageOf_le_one summary challenge
  unfold qualityScoreOf
  constructor <;> split_ifs <;> linarith

/-- C7: for every summary text and every challenge, the quality score lies in
[0, 1] and equals 0.4·[issue_found] + 0.4·[solution_found] +
0.2·phrase_coverage, where phrase_coverage is phrases_found / total_phrases
and 1 when the key-phrase list is empty. -/
theorem c7_quality_score_formula_and_bounds (summary : List Char)
    (challenge : Challenge) :
    0 ≤ (evaluate_summary_quality summary challenge).quality_score ∧
    (evaluate_summary_quality summary challenge).quality_score ≤ 1 ∧
    (evaluate_summary_quality summary challenge).quality_score =
      (0.4 : ℚ) *
        (if (evaluate_summary_quality summary challenge).issue_found then 1 else 0) +
      (0.4 : ℚ) *
        (if (evaluate_summary_quality summary challenge).solution_found then 1 else 0) +
      (0.2 : ℚ) * (evaluate_summary_quality summary challenge).phrase_coverage ∧
    (evaluate_summary_quality summary challenge).phrase_coverage =
      (if challenge.key_phrases.isEmpty then 1
       else ((evaluate_summary_quality summary challenge).phrases_found : ℚ) /
         ((evaluate_summary_quality summary challenge).total_phrases : ℚ)) := by
  simp only [evaluate_summary_quality]
  refine ⟨(qualityScoreOf_bounds summary challenge).1,
    (qualityScoreOf_bounds summary challenge).2, ?_, ?_⟩
  · unfold qualityScoreOf
    split_ifs <;> ring
  · rfl

/-- C8: for a challenge with empty expected_issue, empty expected_solution and
empty key_phrases, every summary scores 1.0 with can_solve true. -/
theorem c8_empty_challenge_scores_one (summary : List Char)
    (challenge : Challenge) (h1 : challenge.expected_issue = [])
    (h2 : challenge.expected_solution = []) (h3 : challenge.key_phrases = []) :
    (evaluate_summary_quality summary challenge).quality_score = 1 ∧
    (evaluate_summary_quality summary challenge).can_solve = true := by
  have hqs : qualityScoreOf summary challenge = 1 := by
    unfold qualityScoreOf issueFoundOf solutionFoundOf phraseCoverageOf
    simp [h1, h2, h3, pyLower]
    norm_num
  refine ⟨hqs, ?_⟩
  simp only [evaluate_summary_quality, hqs]
  norm_num

/-- C8 witness at a concrete empty challenge and nonempty summary. -/
theorem c8_empty_challenge_scores_one_witness :
    (evaluate_summary_quality "arbitrary summary text".data
      ⟨"run the task".data, [], [], []⟩).quality_score = 1 ∧
    (evaluate_summary_quality "arbitrary summary text".data
      ⟨"run the task".data, [], [], []⟩).can_solve = true :=
  c8_empty_challenge_scores_one "arbitrary summary text".data
    ⟨"run the task".data, [], [], []⟩ rfl rfl rfl

/-- C10: a recorded result row never has can_solve true together with
needs_full_output true — the raw-output branch forces can_solve false, and
otherwise can_solve needs score at least 0.7 while needs_full_output needs
score below 0.5. -/
theorem c10_can_solve_excludes_needs_full_output (usedRawOutput : Bool)
    (stdout : List Char) (challenge : Challenge)
    (h : (qualityStep usedRawOutput stdout challenge).1.can_solve = true) :
    (qualityStep usedRawOutput stdout challenge).2 = false := by
  cases usedRawOutput with
  | true => simp [qualityStep, zeroedEvaluation] at h
  | false =>
    simp only [qualityStep, Bool.false_eq_true, if_false,
      evaluate_summary_quality, decide_eq_true_eq, ge_iff_le] at h ⊢
    rw [decide_eq_false_iff_not, not_lt]
    linarith

/-- C10 witness: a concrete non-raw row that can solve does not need the full
output. -/
theorem c10_can_solve_excludes_needs_full_output_witness :
    (qualityStep false "it went fine".data ⟨"run".data, [], [], []⟩).2 = false :=
  c10_can_solve_excludes_needs_full_output false "it went fine".data
    ⟨"run".data, [], [], []⟩
    (by norm_num [qualityStep, evaluate_summary_quality, qualityScoreOf,
      issueFoundOf, solutionFoundOf, phraseCoverageOf, pyLower])

/-- C1: when the classifier reports used_raw_output, the scorer is bypassed
and a fully zeroed evaluation is substituted with needs_full_output true, for
every challenge and summary — including a summary containing all expected
substrings, which the scorer itself would have rated 1.0. -/
theorem c1_raw_output_substitutes_zeroed_evaluation :
    (∀ (challenge : Challenge) (stdout : List Char),
      qualityStep true stdout challenge =
        ({ can_solve := false, quality_score := 0, issue_found := false,
           solution_found := false, phrase_coverage := 0, phrases_found := 0,
           total_phrases := challenge.key_phrases.length }, true)) ∧
    (evaluate_summary_quality
        "build failed: missing dependency; npm install; enoent".data
        ⟨"run".data, "build failed".data, "missing dependency".data,
          ["npm install".data, "ENOENT".data]⟩).quality_score = 1 ∧
    (qualityStep true
        "build failed: missing dependency; npm install; enoent".data
        ⟨"run".data, "build failed".data, "missing dependency".data,
          ["npm install".data, "ENOENT".data]⟩).1.quality_score = 0 := by
  refine ⟨fun challenge stdout => rfl, ?_, rfl⟩
  have h1 : issueFoundOf
      "build failed: missing dependency; npm install; enoent".data
      ⟨"run".data, "build failed".data, "missing dependency".data,
        ["npm install".data, "ENOENT".data]⟩ = true := by decide
  have h2 : solutionFoundOf
      "build failed: missing dependency; npm install; enoent".data
      ⟨"run".data, "build failed".data, "missing dependency".data,
        ["npm install".data, "ENOENT".data]⟩ = true := by decide
  have h3 : phrasesFoundOf
      "build failed: missing dependency; npm install; enoent".data
      ⟨"run".data, "build failed".data, "missing dependency".data,
        ["npm install".data, "ENOENT".data]⟩ = 2 := by decide
  show qualityScoreOf _ _ = 1
  unfold qualityScoreOf phraseCoverageOf
  rw [h1, h2, h3]
  norm_num

/-- C5: output with no "available at" marker yields no output-file path; a
line carrying the artifact marker followed by "available at <path>" yields
exactly that path trimmed of surrounding whitespace, and scanning stops at
the first matching line. -/
theorem c5_output_file_extraction_round_trip :
    (∀ s : List Char, containsSub "available at".data s = false →
      extractOutputFile s = none) ∧
    extractOutputFile
        "Summarizing\nThe complete output is available at   /tmp/x.out  \nThe complete output is available at /second/path".data =
      some "/tmp/x.out".data := by
  constructor
  · intro s hs
    apply extractLoop_none
    intro l hm
    cases h : containsSub outputMarker l with
    | false => rfl
    | true =>
      exfalso
      have havail : containsSub "available at".data l = true :=
        containsSub_trans (by decide) h
      obtain ⟨p, t, rfl⟩ := (splitOnChar_parts '\n' s).2 l hm
      have hfull : containsSub "available at".data (p ++ l ++ t) = true := by
        rw [containsSub_iff_parts] at havail ⊢
        obtain ⟨p2, t2, rfl⟩ := havail
        exact ⟨p ++ p2, t2 ++ t, by simp⟩
      rw [hfull] at hs
      exact Bool.noConfusion hs
  · decide

/-- C5 witness: a concrete output without the marker maps to no path. -/
theorem c5_output_file_extraction_round_trip_witness :
    extractOutputFile "plain summary with no marker".data = none :=
  c5_output_file_extraction_round_trip.1 "plain summary with no marker".data
    (by decide)

/-- C3: per evaluation step at most two invocations are issued; the second is
issued exactly when the first attempt's recorded exit code is non-zero, the
force flag was on, and the combined stdout+stderr carries the
unsupported-flag marker; a returned classification is a pure function of the
terminal attempt's stdout and exit code. -/
theorem c3_at_most_two_invocations (oracle : Bool → ExecOutcome)
    (forceSummary : Bool) (timeout : Nat) :
    (runCommandQuality oracle forceSummary).2 ≤ 2 ∧
    ((runCommandQuality oracle forceSummary).2 = 2 ↔
      retryCond (qFirstResult oracle forceSummary) forceSummary = true) ∧
    (retryCond (qFirstResult oracle forceSummary) forceSummary = true →
      (qFirstResult oracle forceSummary).code ≠ 0 ∧ forceSummary = true ∧
      hasUnsupportedMarker ((qFirstResult oracle forceSummary).stdout ++
        '\n' :: (qFirstResult oracle forceSummary).stderr) = true) ∧
    (∀ res, (runCommandQuality oracle forceSummary).1 = RunOutcome.ok res →
      res.outputFile = extractOutputFile res.stdout ∧
      res.usedRawOutput = usedRawOutputOf res.stdout ∧
      (retryCond (qFirstResult oracle forceSummary) forceSummary = false →
        res.stdout = (qFirstResult oracle forceSummary).stdout ∧
        res.exitCode = (qFirstResult oracle forceSummary).code) ∧
      (∀ r2, retryCond (qFirstResult oracle forceSummary) forceSummary = true →
        oracle false = ExecOutcome.completed r2 →
        res.stdout = r2.stdout ∧ res.exitCode = r2.code)) ∧
    (runCommandSpeed oracle forceSummary timeout).2 ≤ 2 ∧
    ((runCommandSpeed oracle forceSummary timeout).2 = 2 ↔
      ∃ r, oracle forceSummary = ExecOutcome.completed r ∧
        retryCond r forceSummary = true) := by
  refine ⟨?_, ?_, ?_, ?_, ?_, ?_⟩
  · unfold runCommandQuality
    split
    · split <;> simp
    · simp
  · unfold runCommandQuality
    cases h : retryCond (qFirstResult oracle forceSummary) forceSummary with
    | true =>
      simp only [h, if_true]
      cases h2 : oracle false <;> simp
    | false => simp [h]
  · intro h
    unfold retryCond at h
    simp only [Bool.and_eq_true, decide_eq_true_eq] at h
    exact ⟨h.1.1, h.1.2, h.2⟩
  · intro res hres
    unfold runCommandQuality at hres
    cases h : retryCond (qFirstResult oracle forceSummary) forceSummary with
    | false =>
      simp only [h, Bool.false_eq_true, if_false, RunOutcome.ok.injEq] at hres
      subst hres
      exact ⟨rfl, rfl, fun _ => ⟨rfl, rfl⟩, fun r2 hc _ => absurd hc (by simp)⟩
    | true =>
      simp only [h, if_true] at hres
      cases h2 : oracle false with
      | completed r2 =>
        rw [h2, RunOutcome.ok.injEq] at hres
        subst hres
        refine ⟨rfl, rfl, fun hc => absurd hc (by simp), ?_⟩
        intro r3 _ h3
        injection h3 with h3
        subst h3
        exact ⟨rfl, rfl⟩
      | timedOut po pe => rw [h2] at hres; exact absurd hres (by simp)
  · unfold runCommandSpeed
    cases h : oracle forceSummary with
    | timedOut po pe => simp
    | completed r =>
      cases hc : retryCond r forceSummary with
      | true =>
        simp only [hc, if_true]
        cases oracle false <;> simp
      | false => simp [hc]
  · unfold runCommandSpeed
    cases h : oracle forceSummary with
    | timedOut po pe =>
      constructor
      · intro h2; exact absurd h2 (by simp)
      · rintro ⟨r, hr, -⟩; exact absurd hr (by simp)
    | completed r =>
      cases hc : retryCond r forceSummary with
      | true =>
        simp only [hc, if_true]
        constructor
        · intro _; exact ⟨r, rfl, hc⟩
        · intro _
          cases h2 : oracle false <;> simp
      | false =>
        simp only [hc, Bool.false_eq_true, if_false]
        constructor
        · intro h2; exact absurd h2 (by simp)
        · rintro ⟨r2, hr2, hc2⟩
          rw [ExecOutcome.completed.injEq] at hr2
          subst hr2
          rw [hc] at hc2
          exact absurd hc2 (by simp)

/-- C3 witness at a concrete oracle whose first attempt fails with the
unsupported-flag diagnostic: both invocations happen, never a third. -/
theorem c3_at_most_two_invocations_witness :
    (runCommandQuality unsupportedFlagOracle true).2 ≤ 2 ∧
    (runCommandQuality unsupportedFlagOracle true).2 = 2 :=
  ⟨(c3_at_most_two_invocations unsupportedFlagOracle true 300).1,
   ((c3_at_most_two_invocations unsupportedFlagOracle true 300).2.1).mpr
     (by decide)⟩

/-- C2: evaluation of the quality runner at a first attempt that times out
(exit code 124) with partial output naming the force flag: the code issues a
fallback retry and returns the retried attempt, while the speed runner
returns the timeout as terminal with zero retries. -/
theorem c2_quality_runner_retries_after_timeout :
    (runCommandQuality timeoutMarkerOracle true).2 = 2 ∧
    (runCommandQuality timeoutMarkerOracle true).1 =
      RunOutcome.ok (qClassify "retried output".data 0) ∧
    (runCommandSpeed timeoutMarkerOracle true 300).2 = 1 ∧
    (runCommandSpeed timeoutMarkerOracle true 300).1 =
      RunOutcome.ok
        (timeoutMessage 300 none
          (some ("error: unexpected argument ".data ++ [sqc] ++
            "--force-summary".data ++ [sqc] ++ " found".data)), 124) := by
  refine ⟨?_, ?_, ?_, ?_⟩ <;> decide

/-- C6 counterexample: a timeout during the fallback retry is not returned as
a completed exit-124 result — it propagates out of run_command as an uncaught
exception in both runners. -/
theorem c6_counterexample_retry_timeout_raises :
    (runCommandQuality retryTimeoutOracle true).1 = RunOutcome.raised ∧
    (runCommandSpeed retryTimeoutOracle true 300).1 = RunOutcome.raised := by
  refine ⟨?_, ?_⟩ <;> decide

/-- C6 amended: a FIRST-attempt timeout is recorded as exit code 124 with the
synthetic message combining partial stdout/stderr and returned as a
completed, non-exceptional result (speed: immediately; quality: whenever the
fallback condition does not fire), while a timeout during the fallback retry
propagates as an exception out of run_command. -/
theorem c6_amended_timeout_handling :
    (∀ (oracle : Bool → ExecOutcome) (forceSummary : Bool) (timeout : Nat)
        (po pe : Option (List Char)),
      oracle forceSummary = ExecOutcome.timedOut po pe →
      (runCommandSpeed oracle forceSummary timeout).1 =
        RunOutcome.ok (timeoutMessage timeout po pe, 124) ∧
      (runCommandSpeed oracle forceSummary timeout).2 = 1 ∧
      qFirstResult oracle forceSummary =
        ⟨(po.getD []) ++ '\n' :: (pe.getD []), [], 124⟩ ∧
      (retryCond (qFirstResult oracle forceSummary) forceSummary = false →
        runCommandQuality oracle forceSummary =
          (RunOutcome.ok
            (qClassify ((po.getD []) ++ '\n' :: (pe.getD [])) 124), 1))) ∧
    (∀ (oracle : Bool → ExecOutcome) (forceSummary : Bool) (timeout : Nat)
        (r : ExecResult) (po pe : Option (List Char)),
      oracle forceSummary = ExecOutcome.completed r →
      retryCond r forceSummary = true →
      oracle false = ExecOutcome.timedOut po pe →
      (runCommandQuality oracle forceSummary).1 = RunOutcome.raised ∧
      (runCommandSpeed oracle forceSummary timeout).1 = RunOutcome.raised) := by
  constructor
  · intro oracle forceSummary timeout po pe h
    have hq : qFirstResult oracle forceSummary =
        ⟨(po.getD []) ++ '\n' :: (pe.getD []), [], 124⟩ := by
      unfold qFirstResult
      rw [h]
    refine ⟨?_, ?_, hq, ?_⟩
    · unfold runCommandSpeed
      rw [h]
    · unfold runCommandSpeed
      rw [h]
    · intro hrc
      rw [hq] at hrc
      unfold runCommandQuality
      simp only [hq, hrc, Bool.false_eq_true, if_false]
  · intro oracle forceSummary timeout r po pe h1 hrc h3
    have hq : qFirstResult oracle forceSummary = r := by
      unfold qFirstResult
      rw [h1]
    constructor
    · unfold runCommandQuality
      simp only [hq, hrc, if_true, h3]
    · unfold runCommandSpeed
      rw [h1]
      simp only [hrc, if_true, h3]

/-- C6 witness: concrete first-attempt and retry timeouts exercising both
halves of the amended statement. -/
theorem c6_amended_timeout_handling_witness :
    (runCommandSpeed plainTimeoutOracle true 300).1 =
      RunOutcome.ok (timeoutMessage 300 (some "par".data) none, 124) ∧
    runCommandQuality plainTimeoutOracle true =
      (RunOutcome.ok (qClassify ("par".data ++ '\n' :: []) 124), 1) ∧
    (runCommandQuality retryTimeoutOracle true).2 = 2 :=
  ⟨(c6_amended_timeout_handling.1 plainTimeoutOracle true 300
      (some "par".data) none rfl).1,
   (c6_amended_timeout_handling.1 plainTimeoutOracle true 300
      (some "par".data) none rfl).2.2.2 (by decide),
   by decide⟩

/-- C9: with size_factor 1.0 and max_tokens 131072 the test input is exactly
131072 characters, and in general the file content is exactly
int(size_factor · max_tokens) repetitions of the character a. -/
theorem c9_write_test_file_size :
    write_test_file 131072 1 = List.replicate 131072 'a' ∧
    (write_test_file 131072 1).length = 131072 ∧
    (∀ (max_tokens : Nat) (size_factor : ℚ),
      write_test_file max_tokens size_factor =
        List.replicate
          (pyIntTrunc (size_factor * (max_tokens : ℚ))).toNat 'a') := by
  have hsize : pyIntTrunc ((1 : ℚ) * ((131072 : Nat) : ℚ)) = 131072 := by
    norm_num [pyIntTrunc]
  have h1 : write_test_file 131072 1 = List.replicate 131072 'a' := by
    show List.replicate
      (pyIntTrunc ((1 : ℚ) * ((131072 : Nat) : ℚ))).toNat 'a' = _
    rw [hsize]
    rfl
  refine ⟨h1, ?_, fun max_tokens size_factor => rfl⟩
  rw [h1, List.length_replicate]

theorem shRead_single_spliced (s : List Char) :
    ∀ k, shRead ShMode.single ((s.map shlexQuoteChar).flatten ++ sqc :: k) =
      (shRead ShMode.norm k).map (fun t => s ++ t) := by
  have hss : (sqc == sqc) = true := by decide
  have hds : (dqc == sqc) = false := by decide
  have hsd : (sqc == dqc) = false := by decide
  have hdd : (dqc == dqc) = true := by decide
  induction s with
  | nil =>
    intro k
    simp only [List.map_nil, List.flatten_nil, List.nil_append, shRead, hss,
      if_true]
    cases shRead ShMode.norm k <;> simp
  | cons c cs ih =>
    intro k
    by_cases hc : c = sqc
    · subst hc
      simp only [List.map_cons, List.flatten_cons, shlexQuoteChar, hss,
        if_true, List.cons_append, List.append_assoc]
      simp only [shRead, hss, hds, hsd, hdd, if_true, Bool.false_eq_true,
        if_false]
      simp only [List.nil_append]
      rw [ih k]
      cases shRead ShMode.norm k <;> simp
    · have hcs : (c == sqc) = false := beq_eq_false_iff_ne.mpr hc
      simp only [List.map_cons, List.flatten_cons, shlexQuoteChar, hcs,
        Bool.false_eq_true, if_false, List.cons_append, List.append_assoc,
        List.singleton_append]
      simp only [shRead, hcs, Bool.false_eq_true, if_false]
      simp only [List.nil_append]
      rw [ih k]
      cases shRead ShMode.norm k <;> simp

theorem shRead_norm_safe (s : List Char) (hs : s.all shlexSafeChar = true) :
    shRead ShMode.norm s = some s := by
  induction s with
  | nil => rfl
  | cons c cs ih =>
    simp only [List.all_cons, Bool.and_eq_true] at hs
    have hcs : (c == sqc) = false := by
      cases h : c == sqc
      · rfl
      · exfalso
        have hceq : c = sqc := beq_iff_eq.mp h
        rw [hceq] at hs
        exact absurd hs.1 (by decide)
    have hcd : (c == dqc) = false := by
      cases h : c == dqc
      · rfl
      · exfalso
        have hceq : c = dqc := beq_iff_eq.mp h
        rw [hceq] at hs
        exact absurd hs.1 (by decide)
    simp only [shRead, hcs, hcd, hs.1, Bool.false_eq_true, if_false, if_true]
    rw [ih hs.2]
    rfl

theorem shellUnquote_shlexQuote (s : List Char) :
    shellUnquote (shlexQuote s) = some s := by
  unfold shellUnquote shlexQuote
  by_cases h1 : s.isEmpty
  · rw [if_pos h1]
    have hnil : s = [] := by simpa [List.isEmpty_iff] using h1
    subst hnil
    decide
  · rw [if_neg h1]
    by_cases h2 : s.all shlexSafeChar = true
    · rw [if_pos h2]
      exact shRead_norm_safe s h2
    · rw [if_neg h2]
      have hss : (sqc == sqc) = true := by decide
      simp only [shRead, hss, if_true]
      have hspl := shRead_single_spliced s []
      simp only at hspl
      rw [hspl]
      simp [shRead]

theorem dropWhileWs_of_startsNonWs (l : List Char)
    (h : startsNonWs l = true) : List.dropWhile isPyWs l = l := by
  cases l with
  | nil => rfl
  | cons c cs =>
    simp only [startsNonWs, Bool.not_eq_true'] at h
    simp [List.dropWhile, h]

theorem pyStrip_eq_self (l : List Char) (h1 : startsNonWs l = true)
    (h2 : endsNonWs l = true) : pyStrip l = l := by
  unfold pyStrip
  rw [dropWhileWs_of_startsNonWs l h1]
  rw [dropWhileWs_of_startsNonWs l.reverse h2]
  exact List.reverse_reverse l

theorem endsNonWs_append (a b : List Char) (h : endsNonWs b = true) :
    endsNonWs (a ++ b) = true := by
  unfold endsNonWs at h ⊢
  rw [List.reverse_append]
  cases hb : b.reverse with
  | nil =>
    rw [hb] at h
    exact absurd h (by decide)
  | cons c cs =>
    rw [hb] at h
    simp only [List.cons_append]
    exact h

/-- C4 counterexample: with a user command containing a space and a
semicolon, the constructed shell command is not the fully escaped
construction the claim asserts — the semicolon reaches `sh -c` unquoted. -/
theorem c4_counterexample_command_not_escaped :
    cgCommand "conf.toml".data "echo hi; rm -rf x".data true ≠
      cgCommandSpecEscaped "conf.toml".data "echo hi; rm -rf x".data true ∧
    cgCommand "conf.toml".data "echo hi; rm -rf x".data true =
      "cg -c conf.toml --force-summary echo hi; rm -rf x".data := by
  refine ⟨?_, ?_⟩ <;> decide

/-- C4 amended: only the config-file path token is shell-escaped — its quoted
form always reads back as the original string under shell word reading — the
force flag is a fixed safe literal, and the user command is appended verbatim
with no escaping, so its shell metacharacters reach `sh -c` intact. -/
theorem c4_amended_shell_escaping :
    (∀ s : List Char, shellUnquote (shlexQuote s) = some s) ∧
    (∀ (config_file command : List Char) (use_force : Bool),
      endsNonWs command = true →
      cgCommand config_file command use_force =
        "cg -c ".data ++ shlexQuote config_file ++ " ".data ++
          (if use_force then "--force-summary".data else []) ++ " ".data ++
          command) := by
  refine ⟨shellUnquote_shlexQuote, ?_⟩
  intro config_file command use_force h
  show pyStrip ("cg -c ".data ++ shlexQuote config_file ++ " ".data ++
      (if use_force then "--force-summary".data else []) ++ " ".data ++
      command) = _
  apply pyStrip_eq_self
  · rfl
  · exact endsNonWs_append _ _ h

/-- C4 witness: the escaped config token round-trips, and a concrete command
is appended verbatim. -/
theorem c4_amended_shell_escaping_witness :
    shellUnquote (shlexQuote "we ird".data) = some "we ird".data ∧
    cgCommand "conf.toml".data "cat x".data true =
      "cg -c ".data ++ shlexQuote "conf.toml".data ++ " ".data ++
        "--force-summary".data ++ " ".data ++ "cat x".data :=
  ⟨c4_amended_shell_escaping.1 "we ird".data,
   by
     have h := c4_amended_shell_escaping.2 "conf.toml".data "cat x".data true
       (by decide)
     simpa using h⟩
